import Mathlib

/-!
Shallow embedding of the cluster-autoscaler core
(`cluster-autoscaler/cloudprovider/aws/aws_cloud_provider.go`,
`cluster-autoscaler/cloudprovider/aws/aws_manager.go`,
`cluster-autoscaler/scale_up.go`, `cluster-autoscaler/provider/gce/gce.go`).

Go strings are byte sequences, so identifiers that flow through the AWS
manager and the provider-id parser are modelled as lists of byte values.
Backend calls are modelled as pure response functions plus an explicit trace
of the calls issued, and Go's `(value, error)` returns as `Except`.
-/

/-- A Go string viewed as its byte sequence. -/
abbrev GoStr := List Nat

/-- Byte sequence of an ASCII literal (for ASCII, UTF-8 bytes = code points). -/
def gostr (s : String) : GoStr := s.data.map Char.toNat

instance {ε α : Type} [DecidableEq ε] [DecidableEq α] : DecidableEq (Except ε α) :=
  fun x y =>
    match x, y with
    | .ok a, .ok b => decidable_of_iff (a = b) (by simp)
    | .error a, .error b => decidable_of_iff (a = b) (by simp)
    | .ok _, .error _ => isFalse (by simp)
    | .error _, .ok _ => isFalse (by simp)

/-- Result of a Go call that can also fault at runtime (index out of range). -/
inductive GoRes (α : Type) where
  | ok (a : α)
  | err (e : String)
  | panicked
deriving DecidableEq

/-- `strings.Split` on a one-byte separator (Go splits at the byte level). -/
def splitOnByte (sep : Nat) : GoStr → List GoStr
  | [] => [[]]
  | b :: rest =>
    let parts := splitOnByte sep rest
    if b = sep then [] :: parts
    else
      match parts with
      | p :: ps => (b :: p) :: ps
      | [] => [[b]]

/-- `AwsRef` (aws_cloud_provider.go): a (zone, name) reference to an AWS
entity; the membership-cache key. -/
structure AwsRef where
  Zone : GoStr
  Name : GoStr
deriving DecidableEq

/-- `AwsRefFromProviderId` (aws_cloud_provider.go:94-103): the source runs
`strings.Split(id[6:], "/")` with no length or scheme check, so an input of
fewer than 6 bytes faults (Go slice out of range), and the first 6 bytes are
dropped whatever they are.  Byte 47 is the slash. -/
def awsRefFromProviderId (id : GoStr) : GoRes AwsRef :=
  if id.length < 6 then .panicked
  else
    match splitOnByte 47 (id.drop 6) with
    | [z, n] => .ok ⟨z, n⟩
    | _ => .err "Wrong id: expected format aws://<availability-zone>/<name>"

example : awsRefFromProviderId (gostr "aws://us-east-1a/i-123") =
    .ok ⟨gostr "us-east-1a", gostr "i-123"⟩ := by decide
example : awsRefFromProviderId (gostr "") = .panicked := by decide
example : awsRefFromProviderId (gostr "gce://z/n") = .ok ⟨gostr "z", gostr "n"⟩ := by
  decide
example : awsRefFromProviderId (gostr "aws://zone-only") =
    .err "Wrong id: expected format aws://<availability-zone>/<name>" := by decide

/-- `Asg` (aws_cloud_provider.go:106-113): one node group.  `aid` models the
identity of the Go `*Asg` allocation (the manager compares `*Asg` pointers);
each registered group is a distinct allocation, so pointer equality is
structural equality with a distinguishing `aid`. -/
structure Asg where
  aid : Nat
  Zone : GoStr
  Name : GoStr
  minSize : Int
  maxSize : Int
deriving DecidableEq

/-- One `AutoScalingGroups[0]` record of a DescribeAutoScalingGroups response:
its desired capacity and the instance ids of its `Instances`. -/
structure AsgDesc where
  desiredCapacity : Int
  instanceIds : List GoStr
deriving DecidableEq

/-- The AWS autoscaling backend, as the narrow surface the manager calls
(aws_manager.go): each operation is a pure response function keyed by the
request parameters (`MaxRecords: 1` requests return a single record). -/
structure AwsService where
  describeGroups : GoStr → Except String AsgDesc
  describeInstances : GoStr → Except String GoStr
  terminateInstance : GoStr → Except String Unit
  setDesiredCapacity : GoStr → Int → Except String Unit

/-- A backend call issued by the manager, recorded in traces.
`terminateInstance` is always issued with ShouldDecrementDesiredCapacity. -/
inductive SvcCall where
  | describeGroups (name : GoStr)
  | describeInstances (instanceId : GoStr)
  | terminateInstance (instanceId : GoStr)
  | setDesiredCapacity (name : GoStr) (size : Int)
deriving DecidableEq

/-- `asgInformation` (aws_manager.go:40-43).  `RegisterAsg` fills only
`config`, so `basename` keeps its zero value. -/
structure AsgInfo where
  config : Asg
  basename : GoStr
deriving DecidableEq

/-- The membership cache `map[AwsRef]*Asg`, as an association list with
unique keys (first-match lookup). -/
abbrev AsgCache := List (AwsRef × Asg)

def cacheLookup (c : AsgCache) (r : AwsRef) : Option Asg :=
  (c.find? (fun p => decide (p.1 = r))).map (·.2)

/-- Go map assignment: the new binding replaces any previous one. -/
def cacheInsert (c : AsgCache) (r : AwsRef) (a : Asg) : AsgCache :=
  (r, a) :: c.filter (fun p => !(decide (p.1 = r)))

/-- `AwsManager` (aws_manager.go:46-52).  The mutex serializes all cache
access; operations here are atomic state transformers, which models that
serialization. -/
structure AwsManager where
  asgs : List AsgInfo
  asgCache : AsgCache
  service : AwsService

/-- `RegisterAsg` (aws_manager.go:77-84). -/
def registerAsg (m : AwsManager) (asg : Asg) : AwsManager :=
  { m with asgs := m.asgs ++ [{ config := asg, basename := [] }] }

/-- `GetAsgSize` (aws_manager.go:87-101): DescribeAutoScalingGroups on the
group's name, returning the first record's DesiredCapacity. -/
def getAsgSize (m : AwsManager) (asg : Asg) : Except String Int × List SvcCall :=
  match m.service.describeGroups asg.Name with
  | .error e => (.error e, [.describeGroups asg.Name])
  | .ok desc => (.ok desc.desiredCapacity, [.describeGroups asg.Name])

/-- `SetAsgSize` (aws_manager.go:104-118). -/
def setAsgSize (m : AwsManager) (asg : Asg) (size : Int) :
    Except String Unit × List SvcCall :=
  (m.service.setDesiredCapacity asg.Name size, [.setDesiredCapacity asg.Name size])

/-- Inner loop of `regenerateCache` (aws_manager.go:209-224): describe each
member instance of one group and record its (availability zone, instance id)
reference into the cache being built. -/
def cacheInstances (svc : AwsService) (cfg : Asg) :
    List GoStr → AsgCache → Except String AsgCache × List SvcCall
  | [], acc => (.ok acc, [])
  | id :: rest, acc =>
    match svc.describeInstances id with
    | .error e => (.error e, [.describeInstances id])
    | .ok az =>
      match cacheInstances svc cfg rest (cacheInsert acc ⟨az, id⟩ cfg) with
      | (r, tr) => (r, .describeInstances id :: tr)

/-- Outer loop of `regenerateCache` (aws_manager.go:191-225): rebuild the
whole mapping into a fresh map (`newCache`), returning the first backend
error without producing any map. -/
def rebuildCache (svc : AwsService) :
    List AsgInfo → AsgCache → Except String AsgCache × List SvcCall
  | [], acc => (.ok acc, [])
  | ai :: rest, acc =>
    match svc.describeGroups ai.basename with
    | .error e => (.error e, [.describeGroups ai.basename])
    | .ok desc =>
      match cacheInstances svc ai.config desc.instanceIds acc with
      | (.error e, tr) => (.error e, .describeGroups ai.basename :: tr)
      | (.ok acc2, tr) =>
        match rebuildCache svc rest acc2 with
        | (r, tr2) => (r, .describeGroups ai.basename :: (tr ++ tr2))

/-- `regenerateCache` (aws_manager.go:191-229): `m.asgCache = newCache` runs
only after the rebuild fully succeeded; an error leaves the manager as it
was. -/
def regenerateCache (m : AwsManager) :
    Except String Unit × AwsManager × List SvcCall :=
  match rebuildCache m.service m.asgs [] with
  | (.error e, tr) => (.error e, m, tr)
  | (.ok c, tr) => (.ok (), { m with asgCache := c }, tr)

/-- `regenerateCacheIgnoreError` (aws_manager.go:183-189): the background
refresh; an error is only logged. -/
def regenerateCacheIgnoreError (m : AwsManager) : AwsManager × List SvcCall :=
  match regenerateCache m with
  | (_, m2, tr) => (m2, tr)

/-- `GetAsgForInstance` (aws_manager.go:155-181): cache hit, else one forced
synchronous refresh when the instance's zone matches some configured group's
zone (the loop acts on the first zone match), else `(nil, nil)`.
Message formatting of the instance value is elided. -/
def getAsgForInstance (m : AwsManager) (inst : AwsRef) :
    Except String (Option Asg) × AwsManager × List SvcCall :=
  match cacheLookup m.asgCache inst with
  | some cfg => (.ok (some cfg), m, [])
  | none =>
    match m.asgs.find? (fun ai => decide (ai.config.Zone = inst.Zone)) with
    | none => (.ok none, m, [])
    | some _ =>
      match regenerateCache m with
      | (.error e, m2, tr) =>
        (.error ("Error while looking for ASG for instance, error: " ++ e), m2, tr)
      | (.ok _, m2, tr) =>
        match cacheLookup m2.asgCache inst with
        | some cfg => (.ok (some cfg), m2, tr)
        | none => (.error "Instance does not belong to any configured ASG", m2, tr)

/-- Validation loop of `DeleteInstances` (aws_manager.go:129-137): every
instance must resolve to the same `*Asg` as the first one (`asg != commonAsg`
is Go pointer comparison, modelled by `Asg` equality with distinct `aid`s). -/
def checkSameAsg (m : AwsManager) (common : Option Asg) :
    List AwsRef → Except String Unit × AwsManager × List SvcCall
  | [] => (.ok (), m, [])
  | i :: rest =>
    match getAsgForInstance m i with
    | (.error e, m2, tr) => (.error e, m2, tr)
    | (.ok asg, m2, tr) =>
      if asg = common then
        match checkSameAsg m2 common rest with
        | (r, m3, tr2) => (r, m3, tr ++ tr2)
      else
        (.error "Cannot delete instances which don't belong to the same ASG.", m2, tr)

/-- Termination loop of `DeleteInstances` (aws_manager.go:139-149): terminate
each instance in order, stopping at the first backend error. -/
def terminateInstances (svc : AwsService) :
    List AwsRef → Except String Unit × List SvcCall
  | [] => (.ok (), [])
  | i :: rest =>
    match svc.terminateInstance i.Name with
    | .error e => (.error e, [.terminateInstance i.Name])
    | .ok _ =>
      match terminateInstances svc rest with
      | (r, tr) => (r, .terminateInstance i.Name :: tr)

/-- `DeleteInstances` (aws_manager.go:121-152). -/
def deleteInstances (m : AwsManager) (instances : List AwsRef) :
    Except String Unit × AwsManager × List SvcCall :=
  match instances with
  | [] => (.ok (), m, [])
  | i0 :: _ =>
    match getAsgForInstance m i0 with
    | (.error e, m2, tr1) => (.error e, m2, tr1)
    | (.ok common, m2, tr1) =>
      match checkSameAsg m2 common instances with
      | (.error e, m3, tr2) => (.error e, m3, tr1 ++ tr2)
      | (.ok _, m3, tr2) =>
        match terminateInstances m3.service instances with
        | (r, tr3) => (r, m3, tr1 ++ tr2 ++ tr3)

/-- Modelled from the spec: `GenerateAsgUrl` is not among the provided source
files; per the data model a node group's identity is its (zone, name) pair,
so the rendered group url is modelled as that pair — two urls are equal iff
zone and name both agree. -/
def generateAsgUrl (zone name : GoStr) : GoStr × GoStr := (zone, name)

/-- `Asg.Id` (aws_cloud_provider.go:195-197). -/
def asgId (asg : Asg) : GoStr × GoStr := generateAsgUrl asg.Zone asg.Name

/-- A kubernetes node as `DeleteNodes`/`Belongs` consume it: its object name
(used in error messages) and its `Spec.ProviderID` bytes. -/
structure KubeNode where
  name : String
  providerId : GoStr

/-- `Asg.Belongs` (aws_cloud_provider.go:148-164): parse the provider id,
resolve it through the manager, error when unmapped, compare group ids. -/
def belongs (m : AwsManager) (asg : Asg) (node : KubeNode) :
    GoRes Bool × AwsManager × List SvcCall :=
  match awsRefFromProviderId node.providerId with
  | .panicked => (.panicked, m, [])
  | .err e => (.err e, m, [])
  | .ok ref =>
    match getAsgForInstance m ref with
    | (.error e, m2, tr) => (.err e, m2, tr)
    | (.ok none, m2, tr) =>
      (.err (node.name ++ " doesn't belong to a known asg"), m2, tr)
    | (.ok (some target), m2, tr) =>
      if asgId target = asgId asg then (.ok true, m2, tr) else (.ok false, m2, tr)

/-- `Asg.IncreaseSize` (aws_cloud_provider.go:133-145). -/
def increaseSize (m : AwsManager) (asg : Asg) (delta : Int) :
    Except String Unit × List SvcCall :=
  if delta ≤ 0 then (.error "size increase must be positive", [])
  else
    match getAsgSize m asg with
    | (.error e, tr) => (.error e, tr)
    | (.ok size, tr) =>
      if asg.maxSize < size + delta then
        (.error "size increase to large", tr)
      else
        match setAsgSize m asg (size + delta) with
        | (r, tr2) => (r, tr ++ tr2)

/-- The per-node loop of `Asg.DeleteNodes` (aws_cloud_provider.go:176-190).
The source tests `if belongs` — not `if !belongs` — before the
"belong to a different asg" error, and then re-parses the provider id. -/
def collectRefs (m : AwsManager) (asg : Asg) :
    List KubeNode → GoRes (List AwsRef) × AwsManager × List SvcCall
  | [] => (.ok [], m, [])
  | node :: rest =>
    match belongs m asg node with
    | (.panicked, m2, tr) => (.panicked, m2, tr)
    | (.err e, m2, tr) => (.err e, m2, tr)
    | (.ok b, m2, tr) =>
      if b then
        (.err (node.name ++ " belong to a different asg"), m2, tr)
      else
        match awsRefFromProviderId node.providerId with
        | .panicked => (.panicked, m2, tr)
        | .err e => (.err e, m2, tr)
        | .ok ref =>
          match collectRefs m2 asg rest with
          | (.ok refs, m3, tr2) => (.ok (ref :: refs), m3, tr ++ tr2)
          | (.err e, m3, tr2) => (.err e, m3, tr ++ tr2)
          | (.panicked, m3, tr2) => (.panicked, m3, tr ++ tr2)

/-- `Asg.DeleteNodes` (aws_cloud_provider.go:167-192): size guard against the
minimum, the per-node loop, then the backend-level `DeleteInstances`. -/
def deleteNodes (m : AwsManager) (asg : Asg) (nodes : List KubeNode) :
    GoRes Unit × AwsManager × List SvcCall :=
  match getAsgSize m asg with
  | (.error e, tr) => (.err e, m, tr)
  | (.ok size, tr) =>
    if size ≤ asg.minSize then
      (.err "min size reached, nodes will not be deleted", m, tr)
    else
      match collectRefs m asg nodes with
      | (.err e, m2, tr2) => (.err e, m2, tr ++ tr2)
      | (.panicked, m2, tr2) => (.panicked, m2, tr ++ tr2)
      | (.ok refs, m2, tr2) =>
        match deleteInstances m2 refs with
        | (.error e, m3, tr3) => (.err e, m3, tr ++ tr2 ++ tr3)
        | (.ok _, m3, tr3) => (.ok (), m3, tr ++ tr2 ++ tr3)

/-- `strings.Split` on a one-character separator, at the character level
(the spec string is configuration text; on valid UTF-8 an ASCII-separator
split agrees with Go's byte-level split). -/
def splitOnChar (sep : Char) : List Char → List (List Char)
  | [] => [[]]
  | c :: rest =>
    let parts := splitOnChar sep rest
    if c = sep then [] :: parts
    else
      match parts with
      | p :: ps => (c :: p) :: ps
      | [] => [[c]]

/-- `strings.SplitN(value, ":", 3)` (buildAsg): at most three tokens, the
last one keeping any further separators. -/
def goSplitN3 (s : String) : List String :=
  match splitOnChar ':' s.data with
  | a :: b :: c :: rest =>
    [String.mk a, String.mk b, String.mk (List.intercalate [':'] (c :: rest))]
  | parts => parts.map String.mk

/-- `strconv.Atoi`: an optional single sign followed by one or more decimal
digits, rejecting values outside the 64-bit signed range (on overflow Atoi
reports ErrRange, which buildAsg treats as failure). -/
def goAtoi (s : String) : Except String Int :=
  let signDigits : Int × List Char :=
    match s.data with
    | '+' :: rest => (1, rest)
    | '-' :: rest => (-1, rest)
    | l => (1, l)
  match signDigits with
  | (sign, digits) =>
    if digits = [] ∨ ¬ digits.all (·.isDigit) then .error "invalid syntax"
    else
      let v : Int := sign * (digits.foldl (fun acc c => acc * 10 + (c.toNat - 48)) 0 : Nat)
      if v < -(2 ^ 63) ∨ 2 ^ 63 - 1 < v then .error "value out of range" else .ok v

/-- Body of `buildAsg` (aws_cloud_provider.go:210-235) once the three tokens
exist: min size (positive), max size (at least min), group identifier.
`ParseAsgUrl` is not among the provided source files, so the
group-identifier parser is a parameter `pu`; a built group is a fresh
allocation, modelled with `aid := 0`. -/
def buildAsgFrom (pu : String → Except String (GoStr × GoStr))
    (t0 t1 t2 : String) : Except String Asg :=
  match goAtoi t0 with
  | .ok mn =>
    if mn ≤ 0 then .error "min size must be >= 1"
    else
      match goAtoi t1 with
      | .ok mx =>
        if mx < mn then .error "max size must be greater or equal to min size"
        else
          match pu t2 with
          | .ok zn =>
            .ok { aid := 0, Zone := zn.1, Name := zn.2, minSize := mn, maxSize := mx }
          | .error _ => .error ("failed to parse asg url: " ++ t2)
      | .error _ => .error ("failed to set max size: " ++ t1 ++ ", expected integer")
  | .error _ => .error ("failed to set min size: " ++ t0 ++ ", expected integer")

/-- `buildAsg` (aws_cloud_provider.go:204-236). -/
def buildAsg (pu : String → Except String (GoStr × GoStr)) (value : String) :
    Except String Asg :=
  match goSplitN3 value with
  | [t0, t1, t2] => buildAsgFrom pu t0 t1 t2
  | _ => .error ("wrong nodes configuration: " ++ value)

/-!
GCE provider (provider/gce/gce.go) and the scale-up engine (scale_up.go).
Pods and node-info shapes are opaque identifiers; the predicate checker and
the estimator are collaborators supplied by the environment.
-/

/-- An unschedulable pod, opaque to the engine. -/
abbrev Pod := Nat

/-- The schedulable-capacity shape produced by `BuildNodeInfoForNode` for a
group's sample node, opaque to the engine. -/
abbrev NodeInfo := Nat

/-- `config.MigConfig` as gce.go consumes it: identity plus size bounds. -/
structure MigConfig where
  zone : String
  name : String
  minSize : Int
  maxSize : Int
deriving DecidableEq

/-- The GCE managed-instance-group backend for one group: size read and size
write as pure responses. -/
structure MigBackend where
  getMigSize : Except String Int
  setMigSize : Int → Except String Unit

/-- `gceNodeGroup.IsScaleUpPossible` (gce.go:100-113): backend errors
propagate; at or above MaxSize the group reports false. -/
def gceIsScaleUpPossible (cfg : MigConfig) (b : MigBackend) : Except String Bool :=
  match b.getMigSize with
  | .error e => .error e
  | .ok cur => if cfg.maxSize ≤ cur then .ok false else .ok true

/-- `gceNodeGroup.GetCurrentSize` (gce.go:133-139). -/
def gceGetCurrentSize (b : MigBackend) : Except String Int :=
  match b.getMigSize with
  | .error e => .error ("failed to get MIG size: " ++ e)
  | .ok cur => .ok cur

/-- `gceNodeGroup.SetSize` (gce.go:119-131): a requested size at or above
MaxSize is capped to MaxSize before the backend write; the second component
is the size value actually sent to `SetMigSize`. -/
def gceSetSize (cfg : MigConfig) (b : MigBackend) (size : Int) :
    Except String Unit × Int :=
  let capped := if cfg.maxSize ≤ size then cfg.maxSize else size
  match b.setMigSize capped with
  | .error e => (.error ("failed to set MIG size: " ++ e), capped)
  | .ok _ => (.ok (), capped)

/-- One node group as the engine sees it (`provider.NodeGroup` implemented by
`gceNodeGroup`): its config, its backend, and the node-info outcome of
`BuildNodeInfoForNode` on its sample node (deterministic per group). -/
structure SGroup where
  cfg : MigConfig
  backend : MigBackend
  nodeInfo : Except String NodeInfo

/-- The environment of one `ScaleUp` invocation: the unschedulable pods, the
node groups returned by the provider, `PredicateChecker.CheckPredicates`
(true = no predicate error, the pod fits the shape), and
`BasicNodeEstimator.Estimate` (bin count from the shape and the added pods). -/
structure ScaleUpEnv where
  pods : List Pod
  groups : List SGroup
  checkPred : Pod → NodeInfo → Bool
  estimateFn : NodeInfo → List Pod → Int

/-- One iteration of the group loop in `ScaleUp` (scale_up.go:68-106): a
group whose `IsScaleUpPossible` errors or is false is skipped; node-info
errors skip every pod of that group; otherwise the pods passing the
predicate check are added to the group's estimator, and an option is
collected iff at least one pod was added. -/
def optionStep (env : ScaleUpEnv) (acc : List (SGroup × List Pod)) (g : SGroup) :
    List (SGroup × List Pod) :=
  match gceIsScaleUpPossible g.cfg g.backend with
  | .error _ => acc
  | .ok false => acc
  | .ok true =>
    match g.nodeInfo with
    | .error _ => acc
    | .ok ni =>
      let fitting := env.pods.filter (fun p => env.checkPred p ni)
      if fitting.isEmpty then acc else acc ++ [(g, fitting)]

/-- The collected expansion options of one cycle, in discovery order. -/
def collectOptions (env : ScaleUpEnv) : List (SGroup × List Pod) :=
  env.groups.foldl (optionStep env) []

/-- Modelled from the spec: `BestExpansionOption` is not among the provided
source files; the spec's baseline selection policy is "first option
encountered whose estimator has count > 0". -/
def bestExpansionOption (opts : List (SGroup × List Pod)) :
    Option (SGroup × List Pod) :=
  opts.find? (fun o => decide (0 < o.2.length))

/-- Outcome of one `ScaleUp` cycle: `(true, nil)`, `(false, nil)`, or
`(false, err)`. -/
inductive SUResult where
  | success
  | noScaleUp
  | failure (e : String)
deriving DecidableEq

/-- Observable behavior of one cycle: the returned outcome, the size values
the engine passed to `NodeGroup.SetSize` (keyed by group name), and the size
values that actually reached the backend `SetMigSize`. -/
structure ScaleUpTrace where
  result : SUResult
  engineSetCalls : List (String × Int)
  migSetCalls : List (String × Int)
deriving DecidableEq

/-- `ScaleUp` (scale_up.go:41-147): no pods means no decision; collect
options over all groups; pick the best option; re-derive the node info,
estimate, read the current size (failure fails the cycle), and call
`SetSize` with the estimate itself — `currentSize + estimate` is computed
(as `newSize`) only for the notification message. -/
def scaleUp (env : ScaleUpEnv) : ScaleUpTrace :=
  if env.pods.isEmpty then ⟨.noScaleUp, [], []⟩
  else
    match bestExpansionOption (collectOptions env) with
    | none => ⟨.noScaleUp, [], []⟩
    | some (g, fitting) =>
      if 0 < fitting.length then
        match g.nodeInfo with
        | .error e => ⟨.failure e, [], []⟩
        | .ok ni =>
          let estimate := env.estimateFn ni fitting
          match gceGetCurrentSize g.backend with
          | .error e => ⟨.failure ("Error getting nodeGroup size: " ++ e), [], []⟩
          | .ok _cur =>
            match gceSetSize g.cfg g.backend estimate with
            | (.error e, sent) =>
              ⟨.failure e, [(g.cfg.name, estimate)], [(g.cfg.name, sent)]⟩
            | (.ok _, sent) =>
              ⟨.success, [(g.cfg.name, estimate)], [(g.cfg.name, sent)]⟩
      else ⟨.noScaleUp, [], []⟩

/-!
Concrete fixtures used as counterexamples and witnesses.
-/

/-- Group A, zone us-a, bounds 1..10. -/
def asgA : Asg := ⟨1, gostr "us-a", gostr "grpA", 1, 10⟩

/-- Group B, same zone, bounds 1..10, a different allocation. -/
def asgB : Asg := ⟨2, gostr "us-a", gostr "grpB", 1, 10⟩

/-- An instance of group A. -/
def refA1 : AwsRef := ⟨gostr "us-a", gostr "i-a1"⟩

/-- An instance of group B. -/
def refB1 : AwsRef := ⟨gostr "us-a", gostr "i-b1"⟩

/-- A backend where both groups exist with desired capacity 2 and every
mutation succeeds. -/
def svcOk : AwsService where
  describeGroups := fun n =>
    if n = gostr "grpA" then .ok ⟨2, [gostr "i-a1"]⟩
    else if n = gostr "grpB" then .ok ⟨2, [gostr "i-b1"]⟩
    else .ok ⟨0, []⟩
  describeInstances := fun _ => .ok (gostr "us-a")
  terminateInstance := fun _ => .ok ()
  setDesiredCapacity := fun _ _ => .ok ()

/-- A manager with groups A and B registered and a warm cache. -/
def mgrAB : AwsManager where
  asgs := [⟨asgA, []⟩, ⟨asgB, []⟩]
  asgCache := [(refA1, asgA), (refB1, asgB)]
  service := svcOk

/-- A node of group A (its provider id parses to `refA1`). -/
def nodeA1 : KubeNode := ⟨"n-a1", gostr "aws://us-a/i-a1"⟩

/-- A node of group B. -/
def nodeB1 : KubeNode := ⟨"n-b1", gostr "aws://us-a/i-b1"⟩

/-- C1: the claim says `Asg.DeleteNodes` validates that every supplied
reference resolves to this very group and errors when a reference belongs to
a different group.  The source tests `if belongs` instead of `if !belongs`
(aws_cloud_provider.go:182), contradicting its own error message: deleting a
node of group A from group A (size 2 > minSize 1) fails with "belong to a
different asg", while deleting a node of group B from group A succeeds and
terminates B's instance on the backend. -/
theorem deleteNodes_belongs_check_inverted :
    (deleteNodes mgrAB asgA [nodeA1]).1 = .err "n-a1 belong to a different asg" ∧
    (deleteNodes mgrAB asgA [nodeB1]).1 = .ok () ∧
    SvcCall.terminateInstance (gostr "i-b1") ∈ (deleteNodes mgrAB asgA [nodeB1]).2.2 := by
  decide

/-- C9 counterexample: the claim says any string not of the shape
`scheme://<zone>/<instanceName>` fails with a parse error and the parser
never faults.  The source slices `id[6:]` unconditionally: the empty string
faults (Go slice out of range) instead of returning a parse error, and a
string with a different scheme of the same prefix length is accepted. -/
theorem awsRefFromProviderId_not_total_parse :
    awsRefFromProviderId (gostr "") = .panicked ∧
    awsRefFromProviderId (gostr "gce://zone/name") =
      .ok ⟨gostr "zone", gostr "name"⟩ := by
  decide

/-- C9 amended: inputs shorter than 6 bytes fault; for longer inputs the
first 6 bytes are dropped unexamined (the scheme is never validated) and the
parser returns a reference iff the remainder splits on '/' (byte 47) into
exactly two fields, otherwise the parse error naming the expected format. -/
theorem awsRefFromProviderId_amended (id : GoStr) :
    (id.length < 6 → awsRefFromProviderId id = .panicked) ∧
    (6 ≤ id.length →
      (∀ z n, splitOnByte 47 (id.drop 6) = [z, n] →
        awsRefFromProviderId id = .ok ⟨z, n⟩) ∧
      (∀ parts, splitOnByte 47 (id.drop 6) = parts → parts.length ≠ 2 →
        awsRefFromProviderId id =
          .err "Wrong id: expected format aws://<availability-zone>/<name>")) := by
  refine ⟨fun h => ?_, fun h => ⟨fun z n hzn => ?_, fun parts hp hlen => ?_⟩⟩
  · simp [awsRefFromProviderId, h]
  · simp [awsRefFromProviderId, Nat.not_lt.mpr h, hzn]
  · subst hp
    unfold awsRefFromProviderId
    rw [if_neg (Nat.not_lt.mpr h)]
    split
    · next z n heq => rw [heq] at hlen; simp at hlen
    · rfl

/-- C9 amended, witness at a concrete input. -/
theorem awsRefFromProviderId_amended_witness :
    awsRefFromProviderId (gostr "aws://z/n") = .ok ⟨gostr "z", gostr "n"⟩ :=
  ((awsRefFromProviderId_amended (gostr "aws://z/n")).2 (by decide)).1
    (gostr "z") (gostr "n") (by decide)

/-- A backend whose groups are currently empty (no member instances). -/
def svcEmptyGroups : AwsService where
  describeGroups := fun _ => .ok ⟨1, []⟩
  describeInstances := fun _ => .ok (gostr "us-a")
  terminateInstance := fun _ => .ok ()
  setDesiredCapacity := fun _ _ => .ok ()

/-- A manager with group A registered, a cold cache, and empty backend
groups: every lookup in zone us-a misses even after a successful refresh. -/
def mgrColdEmpty : AwsManager where
  asgs := [⟨asgA, []⟩]
  asgCache := []
  service := svcEmptyGroups

/-- An unmanaged instance whose zone matches group A's zone. -/
def refX : AwsRef := ⟨gostr "us-a", gostr "i-x"⟩

/-- C3 counterexample: the claim says a reference that is still missing
after a successful forced refresh is reported as a valid non-error unknown
outcome.  At this input the refresh succeeds (and the lookup misses, with
the zone matching a configured group), yet `GetAsgForInstance` returns an
error, not a non-error unknown (aws_manager.go:175). -/
theorem getAsgForInstance_miss_after_refresh_is_error :
    cacheLookup mgrColdEmpty.asgCache refX = none ∧
    (mgrColdEmpty.asgs.find?
      (fun ai => decide (ai.config.Zone = refX.Zone))).isSome ∧
    (rebuildCache mgrColdEmpty.service mgrColdEmpty.asgs []).1 = .ok [] ∧
    (getAsgForInstance mgrColdEmpty refX).1 =
      .error "Instance does not belong to any configured ASG" := by
  decide

/-- C3 amended: on a cache miss, a reference whose zone matches no
configured group is the valid non-error unknown outcome (no refresh, cache
untouched); when the zone matches a configured group, one synchronous
refresh runs, and then: a refresh failure is an error with the cache left at
its previous state, a hit in the refreshed cache is returned, and a
reference still missing after the successful refresh is reported as an
error naming the instance as not in any configured ASG (with the refreshed
cache installed) — not as a non-error unknown. -/
theorem getAsgForInstance_outcomes (m : AwsManager) (inst : AwsRef)
    (hmiss : cacheLookup m.asgCache inst = none) :
    (m.asgs.find? (fun ai => decide (ai.config.Zone = inst.Zone)) = none →
      getAsgForInstance m inst = (.ok none, m, [])) ∧
    (∀ ai, m.asgs.find? (fun ai => decide (ai.config.Zone = inst.Zone)) = some ai →
      (∀ e tr, rebuildCache m.service m.asgs [] = (.error e, tr) →
        getAsgForInstance m inst =
          (.error ("Error while looking for ASG for instance, error: " ++ e), m, tr)) ∧
      (∀ c tr, rebuildCache m.service m.asgs [] = (.ok c, tr) →
        (cacheLookup c inst = none →
          getAsgForInstance m inst =
            (.error "Instance does not belong to any configured ASG",
             { m with asgCache := c }, tr)) ∧
        (∀ a, cacheLookup c inst = some a →
          getAsgForInstance m inst = (.ok (some a), { m with asgCache := c }, tr)))) := by
  refine ⟨fun hnone => ?_, fun ai hfind => ⟨fun e tr herr => ?_, fun c tr hok => ⟨fun hc => ?_, fun a hc => ?_⟩⟩⟩
  · simp [getAsgForInstance, hmiss, hnone]
  · simp [getAsgForInstance, hmiss, hfind, regenerateCache, herr]
  · simp [getAsgForInstance, hmiss, hfind, regenerateCache, hok, hc]
  · simp [getAsgForInstance, hmiss, hfind, regenerateCache, hok, hc]

/-- C3 amended, witness: at the concrete cold manager the refresh succeeds,
the lookup still misses, and the outcome is the explicit error with the
refreshed (empty-but-successful) cache installed. -/
theorem getAsgForInstance_outcomes_witness :
    getAsgForInstance mgrColdEmpty refX =
      (.error "Instance does not belong to any configured ASG",
       { mgrColdEmpty with asgCache := [] },
       [SvcCall.describeGroups []]) :=
  (((getAsgForInstance_outcomes mgrColdEmpty refX (by decide)).2
      ⟨asgA, []⟩ (by decide)).2 [] [SvcCall.describeGroups []] (by decide)).1
    (by decide)

/-- C4: every refresh is all-or-nothing.  A failing rebuild returns the
error with the manager — in particular its cache map — exactly as it was; a
successful rebuild installs precisely the completely rebuilt map; and after
the background refresh or an on-demand lookup the cache equals either the
previous map or the fully-successful rebuild snapshot, never a partially
rebuilt map. -/
theorem cacheRefresh_allOrNothing (m : AwsManager) :
    (∀ e tr, rebuildCache m.service m.asgs [] = (.error e, tr) →
      regenerateCache m = (.error e, m, tr)) ∧
    (∀ c tr, rebuildCache m.service m.asgs [] = (.ok c, tr) →
      regenerateCache m = (.ok (), { m with asgCache := c }, tr)) ∧
    (∀ m2 tr, regenerateCacheIgnoreError m = (m2, tr) →
      m2.asgCache = m.asgCache ∨
      (rebuildCache m.service m.asgs []).1 = .ok m2.asgCache) ∧
    (∀ inst res m2 tr, getAsgForInstance m inst = (res, m2, tr) →
      m2.asgCache = m.asgCache ∨
      (rebuildCache m.service m.asgs []).1 = .ok m2.asgCache) := by
  refine ⟨fun e tr herr => ?_, fun c tr hok => ?_, fun m2 tr hbg => ?_,
    fun inst res m2 tr hl => ?_⟩
  · simp [regenerateCache, herr]
  · simp [regenerateCache, hok]
  · rw [regenerateCacheIgnoreError, regenerateCache] at hbg
    rcases hr : rebuildCache m.service m.asgs [] with ⟨r, tr2⟩
    rw [hr] at hbg
    cases r with
    | error e => simp at hbg; rw [← hbg.1]; exact Or.inl rfl
    | ok c => simp at hbg; rw [← hbg.1]; exact Or.inr rfl
  · rw [getAsgForInstance] at hl
    rcases hc : cacheLookup m.asgCache inst with _ | cfg
    · rw [hc] at hl
      rcases hf : m.asgs.find? (fun ai => decide (ai.config.Zone = inst.Zone)) with _ | ai
      · rw [hf] at hl
        simp at hl
        rw [← hl.2.1]
        exact Or.inl rfl
      · rw [hf, regenerateCache] at hl
        rcases hr : rebuildCache m.service m.asgs [] with ⟨r, tr2⟩
        rw [hr] at hl
        cases r with
        | error e => simp at hl; rw [← hl.2.1]; exact Or.inl rfl
        | ok c =>
          simp only at hl
          rcases hc2 : cacheLookup c inst with _ | cfg2 <;> rw [hc2] at hl <;>
            simp at hl <;> rw [← hl.2.1] <;> exact Or.inr rfl
    · rw [hc] at hl
      simp at hl
      rw [← hl.2.1]
      exact Or.inl rfl

/-- C4 witness: a manager whose backend listing fails keeps its cache map
unchanged, and the background refresh at the warm manager installs the full
rebuild snapshot. -/
theorem cacheRefresh_allOrNothing_witness :
    regenerateCache
      { mgrColdEmpty with
        service := { svcEmptyGroups with describeGroups := fun _ => .error "boom" } } =
      (.error "boom",
       { mgrColdEmpty with
         service := { svcEmptyGroups with describeGroups := fun _ => .error "boom" } },
       [SvcCall.describeGroups []]) :=
  (cacheRefresh_allOrNothing _).1 "boom" [SvcCall.describeGroups []] (by decide)

/-- C6: `IncreaseSize` errors for every non-positive delta without any
backend call; for positive delta (with a readable current size and a
backend that accepts the write) it succeeds and sets the backend desired
capacity to currentSize + delta iff that does not exceed maxSize, and
otherwise errors with no capacity write issued. -/
theorem increaseSize_correct (m : AwsManager) (asg : Asg) (delta : Int)
    (desc : AsgDesc)
    (hget : m.service.describeGroups asg.Name = .ok desc)
    (hset : m.service.setDesiredCapacity asg.Name (desc.desiredCapacity + delta) = .ok ()) :
    (delta ≤ 0 →
      increaseSize m asg delta = (.error "size increase must be positive", [])) ∧
    (0 < delta →
      ((increaseSize m asg delta).1 = .ok () ↔
        desc.desiredCapacity + delta ≤ asg.maxSize) ∧
      (desc.desiredCapacity + delta ≤ asg.maxSize →
        increaseSize m asg delta =
          (.ok (), [.describeGroups asg.Name,
                    .setDesiredCapacity asg.Name (desc.desiredCapacity + delta)])) ∧
      (asg.maxSize < desc.desiredCapacity + delta →
        increaseSize m asg delta =
          (.error "size increase to large", [.describeGroups asg.Name]))) := by
  refine ⟨fun hle => ?_, fun hpos => ?_⟩
  · simp [increaseSize, hle]
  · have hnle : ¬ delta ≤ 0 := by omega
    by_cases hcap : desc.desiredCapacity + delta ≤ asg.maxSize
    · have hnlt : ¬ asg.maxSize < desc.desiredCapacity + delta := by omega
      refine ⟨?_, fun _ => ?_, fun h => absurd h hnlt⟩
      · simp [increaseSize, hnle, getAsgSize, hget, hnlt, setAsgSize, hset, hcap]
      · simp [increaseSize, hnle, getAsgSize, hget, hnlt, setAsgSize, hset]
    · have hlt : asg.maxSize < desc.desiredCapacity + delta := by omega
      refine ⟨?_, fun h => absurd h hcap, fun _ => ?_⟩
      · simp [increaseSize, hnle, getAsgSize, hget, hlt, hcap]
      · simp [increaseSize, hnle, getAsgSize, hget, hlt]

/-- C6 witness: at the warm manager, group A (maxSize 10, current size 2):
delta 3 succeeds writing capacity 5; the theorem also rules out delta 0 and
oversized increases at this input. -/
theorem increaseSize_correct_witness :
    increaseSize mgrAB asgA 3 =
      (.ok (), [.describeGroups (gostr "grpA"),
                .setDesiredCapacity (gostr "grpA") 5]) := by
  have h := increaseSize_correct mgrAB asgA 3 ⟨2, [gostr "i-a1"]⟩ (by decide) (by decide)
  exact (h.2 (by decide)).2.1 (by decide)

/-- A sample group-identifier parser for concrete checks. -/
def puSample (t : String) : Except String (GoStr × GoStr) := .ok (gostr "z", gostr t)

example : buildAsg puSample "1:10:grp" =
    .ok { aid := 0, Zone := gostr "z", Name := gostr "grp", minSize := 1, maxSize := 10 } := by
  decide
example : buildAsg puSample "0:10:grp" = .error "min size must be >= 1" := by decide
example : buildAsg puSample "5:4:grp" =
    .error "max size must be greater or equal to min size" := by decide
example : buildAsg puSample "boo:4:grp" =
    .error "failed to set min size: boo, expected integer" := by decide
example : buildAsg puSample "1:10" = .error "wrong nodes configuration: 1:10" := by
  decide

lemma buildAsgFrom_bounds (pu : String → Except String (GoStr × GoStr))
    (t0 t1 t2 : String) (mn mx : Int) :
    (∃ a, buildAsgFrom pu t0 t1 t2 = .ok a ∧ a.minSize = mn ∧ a.maxSize = mx) ↔
    (goAtoi t0 = .ok mn ∧ 1 ≤ mn ∧ goAtoi t1 = .ok mx ∧ mn ≤ mx ∧
      ∃ zn, pu t2 = .ok zn) := by
  constructor
  · rintro ⟨a, hok, hmn, hmx⟩
    unfold buildAsgFrom at hok
    split at hok
    · split at hok
      · exact absurd hok (by simp)
      · split at hok
        · split at hok
          · exact absurd hok (by simp)
          · split at hok
            · rename_i x0 mn' ha0 hm0 x1 mx' ha1 hm1 x2 zn hpu
              have ha := Except.ok.inj hok
              rw [← ha] at hmn hmx
              simp only at hmn hmx
              subst hmn; subst hmx
              exact ⟨ha0, by omega, ha1, by omega, zn, hpu⟩
            · exact absurd hok (by simp)
        · exact absurd hok (by simp)
    · exact absurd hok (by simp)
  · rintro ⟨ha0, h1mn, ha1, hmm, zn, hpu⟩
    have hm0 : ¬ mn ≤ 0 := by omega
    have hm1 : ¬ mx < mn := by omega
    refine ⟨{ aid := 0, Zone := zn.1, Name := zn.2, minSize := mn, maxSize := mx },
      ?_, rfl, rfl⟩
    simp [buildAsgFrom, ha0, ha1, hpu, hm0, hm1]

/-- C5: parsing a node-group specification succeeds with exactly the given
bounds iff the string splits (SplitN, at most three tokens) into three
fields whose first two are integers with 1 ≤ min ≤ max and whose third is
accepted by the group-identifier parser; every other string yields an
error (`Except` makes the two outcomes exclusive). -/
theorem buildAsg_bounds (pu : String → Except String (GoStr × GoStr))
    (s : String) (mn mx : Int) :
    (∃ a, buildAsg pu s = .ok a ∧ a.minSize = mn ∧ a.maxSize = mx) ↔
    (∃ t0 t1 t2, goSplitN3 s = [t0, t1, t2] ∧
      goAtoi t0 = .ok mn ∧ 1 ≤ mn ∧ goAtoi t1 = .ok mx ∧ mn ≤ mx ∧
      ∃ zn, pu t2 = .ok zn) := by
  constructor
  · rintro ⟨a, hok, hmn, hmx⟩
    unfold buildAsg at hok
    split at hok
    · next t0 t1 t2 h3 =>
      exact ⟨t0, t1, t2, h3,
        (buildAsgFrom_bounds pu t0 t1 t2 mn mx).1 ⟨a, hok, hmn, hmx⟩⟩
    · exact absurd hok (by simp)
  · rintro ⟨t0, t1, t2, h3, hrest⟩
    obtain ⟨a, hok, hmn, hmx⟩ := (buildAsgFrom_bounds pu t0 t1 t2 mn mx).2 hrest
    refine ⟨a, ?_, hmn, hmx⟩
    rw [buildAsg, h3]
    exact hok

lemma getAsgForInstance_hit (m : AwsManager) (r : AwsRef) (g : Asg)
    (h : cacheLookup m.asgCache r = some g) :
    getAsgForInstance m r = (.ok (some g), m, []) := by
  simp [getAsgForInstance, h]

lemma checkSameAsg_all_match (m : AwsManager) (g : Asg) (l : List AwsRef)
    (hall : ∀ r ∈ l, cacheLookup m.asgCache r = some g) :
    checkSameAsg m (some g) l = (.ok (), m, []) := by
  induction l with
  | nil => rfl
  | cons i rest ih =>
    have hi := getAsgForInstance_hit m i g (hall i (by simp))
    have ih' := ih (fun r hr => hall r (by simp [hr]))
    simp [checkSameAsg, hi, ih']

lemma checkSameAsg_mismatch (m : AwsManager) (common : Option Asg)
    (l : List AwsRef)
    (hall : ∀ r ∈ l, (cacheLookup m.asgCache r).isSome)
    (hex : ∃ r ∈ l, cacheLookup m.asgCache r ≠ common) :
    checkSameAsg m common l =
      (.error "Cannot delete instances which don't belong to the same ASG.", m, []) := by
  induction l with
  | nil => rcases hex with ⟨r, hr, _⟩; cases hr
  | cons i rest ih =>
    obtain ⟨gi, hgi⟩ := Option.isSome_iff_exists.1 (hall i (by simp))
    have hi := getAsgForInstance_hit m i gi hgi
    by_cases hci : (some gi : Option Asg) = common
    · have hex2 : ∃ r ∈ rest, cacheLookup m.asgCache r ≠ common := by
        rcases hex with ⟨r, hr, hne⟩
        rcases List.mem_cons.1 hr with h | h
        · subst h; rw [hgi] at hne; exact absurd hci hne
        · exact ⟨r, h, hne⟩
      have ih' := ih (fun r hr => hall r (by simp [hr])) hex2
      simp [checkSameAsg, hi, hci, ih']
    · simp [checkSameAsg, hi, hci]

/-- C7: `DeleteInstances` on a list containing two references that resolve
(here: through the membership cache) to different groups errors out of the
validation loop, with no termination call — indeed no backend call at all —
issued for any reference, and the manager unchanged. -/
theorem deleteInstances_mixed_groups_rejected (m : AwsManager)
    (instances : List AwsRef) (a b : AwsRef) (ga gb : Asg)
    (hall : ∀ r ∈ instances, (cacheLookup m.asgCache r).isSome)
    (ha : a ∈ instances) (hga : cacheLookup m.asgCache a = some ga)
    (hb : b ∈ instances) (hgb : cacheLookup m.asgCache b = some gb)
    (hne : ga ≠ gb) :
    deleteInstances m instances =
      (.error "Cannot delete instances which don't belong to the same ASG.", m, []) := by
  cases instances with
  | nil => cases ha
  | cons i0 rest =>
    obtain ⟨g0, hg0⟩ := Option.isSome_iff_exists.1 (hall i0 (by simp))
    have hi0 := getAsgForInstance_hit m i0 g0 hg0
    have hex : ∃ r ∈ i0 :: rest, cacheLookup m.asgCache r ≠ some g0 := by
      by_cases hga0 : ga = g0
      · refine ⟨b, hb, ?_⟩
        rw [hgb]
        intro hc
        exact hne (hga0.trans (Option.some.inj hc).symm)
      · refine ⟨a, ha, ?_⟩
        rw [hga]
        intro hc
        exact hga0 (Option.some.inj hc)
    have hchk := checkSameAsg_mismatch m (some g0) (i0 :: rest) hall hex
    simp [deleteInstances, hi0, hchk]

/-- C7 witness: one reference of group A and one of group B. -/
theorem deleteInstances_mixed_groups_rejected_witness :
    deleteInstances mgrAB [refA1, refB1] =
      (.error "Cannot delete instances which don't belong to the same ASG.", mgrAB, []) :=
  deleteInstances_mixed_groups_rejected mgrAB [refA1, refB1] refA1 refB1 asgA asgB
    (by decide) (by decide) (by decide) (by decide) (by decide) (by decide)

lemma terminateInstances_all_ok (svc : AwsService) (l : List AwsRef)
    (h : ∀ r ∈ l, svc.terminateInstance r.Name = .ok ()) :
    terminateInstances svc l =
      (.ok (), l.map (fun r => SvcCall.terminateInstance r.Name)) := by
  induction l with
  | nil => rfl
  | cons i rest ih =>
    have hi := h i (by simp)
    have ih' := ih (fun r hr => h r (by simp [hr]))
    simp [terminateInstances, hi, ih']

lemma terminateInstances_first_error (svc : AwsService) (pre : List AwsRef)
    (bad : AwsRef) (post : List AwsRef) (e : String)
    (hpre : ∀ r ∈ pre, svc.terminateInstance r.Name = .ok ())
    (hbad : svc.terminateInstance bad.Name = .error e) :
    terminateInstances svc (pre ++ bad :: post) =
      (.error e, pre.map (fun r => SvcCall.terminateInstance r.Name) ++
        [SvcCall.terminateInstance bad.Name]) := by
  induction pre with
  | nil => simp [terminateInstances, hbad]
  | cons i rest ih =>
    have hi := hpre i (by simp)
    have ih' := ih (fun r hr => hpre r (by simp [hr]))
    simp [terminateInstances, hi, ih']

/-- C10: for references all cached to the same group, `DeleteInstances`
issues exactly one termination call per reference, in list order, stopping
at and returning the first backend error — so a failing call leaves exactly
the proper prefix before it terminated — and an empty list succeeds with no
backend or cache interaction at all. -/
theorem deleteInstances_sameGroup_inOrder (m : AwsManager) (g : Asg)
    (instances : List AwsRef)
    (hall : ∀ r ∈ instances, cacheLookup m.asgCache r = some g) :
    (deleteInstances m [] = (.ok (), m, [])) ∧
    ((∀ r ∈ instances, m.service.terminateInstance r.Name = .ok ()) →
      deleteInstances m instances =
        (.ok (), m, instances.map (fun r => SvcCall.terminateInstance r.Name))) ∧
    (∀ pre bad post e, instances = pre ++ bad :: post →
      (∀ r ∈ pre, m.service.terminateInstance r.Name = .ok ()) →
      m.service.terminateInstance bad.Name = .error e →
      deleteInstances m instances =
        (.error e, m, pre.map (fun r => SvcCall.terminateInstance r.Name) ++
          [SvcCall.terminateInstance bad.Name])) := by
  refine ⟨rfl, ?_, ?_⟩
  · intro hterm
    cases instances with
    | nil => rfl
    | cons i0 rest =>
      have hi0 := getAsgForInstance_hit m i0 g (hall i0 (by simp))
      have hchk := checkSameAsg_all_match m g (i0 :: rest) hall
      have ht := terminateInstances_all_ok m.service (i0 :: rest) hterm
      simp [deleteInstances, hi0, hchk, ht]
  · intro pre bad post e hsplit hpre hbad
    subst hsplit
    obtain ⟨i0, rest, hl⟩ : ∃ i0 rest, pre ++ bad :: post = i0 :: rest := by
      cases pre with
      | nil => exact ⟨bad, post, rfl⟩
      | cons x xs => exact ⟨x, xs ++ bad :: post, rfl⟩
    have hi0mem : i0 ∈ pre ++ bad :: post := by rw [hl]; simp
    have hi0 := getAsgForInstance_hit m i0 g (hall i0 hi0mem)
    have hchk := checkSameAsg_all_match m g (pre ++ bad :: post) hall
    have ht := terminateInstances_first_error m.service pre bad post e hpre hbad
    rw [hl] at hchk ht ⊢
    simp [deleteInstances, hi0, hchk, ht]

/-- C10 witness: a single group-A reference is terminated in order with one
backend call. -/
theorem deleteInstances_sameGroup_inOrder_witness :
    deleteInstances mgrAB [refA1] =
      (.ok (), mgrAB, [SvcCall.terminateInstance (gostr "i-a1")]) := by
  have h := deleteInstances_sameGroup_inOrder mgrAB asgA [refA1] (by decide)
  exact h.2.1 (by decide)

lemma optionStep_skip (env : ScaleUpEnv) (g : SGroup)
    (hskip : (∃ e, gceIsScaleUpPossible g.cfg g.backend = .error e) ∨
             gceIsScaleUpPossible g.cfg g.backend = .ok false) :
    ∀ acc, optionStep env acc g = acc := by
  intro acc
  rcases hskip with ⟨e, he⟩ | hf
  · simp [optionStep, he]
  · simp [optionStep, hf]

lemma foldl_skip {α γ : Type} (f : γ → α → γ) (g : α)
    (hg : ∀ acc, f acc g = acc) (gs1 gs2 : List α) (init : γ) :
    (gs1 ++ g :: gs2).foldl f init = (gs1 ++ gs2).foldl f init := by
  rw [List.foldl_append, List.foldl_append, List.foldl_cons, hg]

lemma optionStep_groups_irrel (env : ScaleUpEnv) (l : List SGroup) :
    optionStep { env with groups := l } = optionStep env := rfl

/-- C8: in a cycle with unschedulable pods, a group whose
`IsScaleUpPossible` either errors or answers false is skipped: the whole
cycle behaves exactly as if the group were absent, so one group's backend
error never makes `ScaleUp` itself fail or abort the cycle. -/
theorem scaleUp_skips_unavailable_group (env : ScaleUpEnv)
    (gs1 gs2 : List SGroup) (g : SGroup)
    (_hpods : env.pods ≠ [])
    (hskip : (∃ e, gceIsScaleUpPossible g.cfg g.backend = .error e) ∨
             gceIsScaleUpPossible g.cfg g.backend = .ok false) :
    scaleUp { env with groups := gs1 ++ g :: gs2 } =
    scaleUp { env with groups := gs1 ++ gs2 } := by
  have hc : collectOptions { env with groups := gs1 ++ g :: gs2 } =
      collectOptions { env with groups := gs1 ++ gs2 } := by
    rw [collectOptions, collectOptions]
    rw [optionStep_groups_irrel, optionStep_groups_irrel]
    exact foldl_skip _ g (optionStep_skip env g hskip) gs1 gs2 []
  simp only [scaleUp]
  rw [hc]

/-- A healthy MIG backend: current size 1, every write accepted. -/
def migOk : MigBackend := ⟨.ok 1, fun _ => .ok ()⟩

/-- A healthy group, bounds 1..3, whose sample node yields shape 0. -/
def gGood : SGroup := ⟨⟨"us-c1", "mig-a", 1, 3⟩, migOk, .ok 0⟩

/-- A group whose size read fails. -/
def gBad : SGroup := ⟨⟨"us-c1", "mig-b", 1, 3⟩, ⟨.error "backend down", fun _ => .ok ()⟩, .ok 0⟩

/-- One pending pod that fits every shape; the estimator asks for 5 nodes. -/
def envC2 : ScaleUpEnv := ⟨[0], [gGood], fun _ _ => true, fun _ _ => 5⟩

/-- C8 witness: with the failing group present or absent, the cycle is the
same. -/
theorem scaleUp_skips_unavailable_group_witness :
    scaleUp { envC2 with groups := [gBad, gGood] } =
    scaleUp { envC2 with groups := [gGood] } :=
  scaleUp_skips_unavailable_group envC2 [] [gGood] gBad (by decide)
    (Or.inl ⟨"backend down", rfl⟩)

/-- C2: once a best option is chosen and the chosen group's current size
reads successfully, the engine passes the estimator's bin count itself —
not currentSize + estimate — to `SetSize`, and `SetSize` caps a request at
or above MaxSize down to MaxSize before the backend write, succeeding if
the backend accepts the write. -/
theorem scaleUp_resize_target_capped (env : ScaleUpEnv) (g : SGroup)
    (fitting : List Pod) (ni : NodeInfo) (cur : Int)
    (hpods : env.pods ≠ [])
    (hbest : bestExpansionOption (collectOptions env) = some (g, fitting))
    (hni : g.nodeInfo = .ok ni)
    (hcur : g.backend.getMigSize = .ok cur) :
    (scaleUp env).engineSetCalls = [(g.cfg.name, env.estimateFn ni fitting)] ∧
    (scaleUp env).migSetCalls =
      [(g.cfg.name,
        if g.cfg.maxSize ≤ env.estimateFn ni fitting then g.cfg.maxSize
        else env.estimateFn ni fitting)] ∧
    (g.backend.setMigSize
        (if g.cfg.maxSize ≤ env.estimateFn ni fitting then g.cfg.maxSize
         else env.estimateFn ni fitting) = .ok () →
      (scaleUp env).result = .success) := by
  have hfit : 0 < fitting.length := by simpa using List.find?_some hbest
  have hne : env.pods.isEmpty = false := by
    simpa [List.isEmpty_iff] using hpods
  have hcur2 : gceGetCurrentSize g.backend = .ok cur := by
    simp [gceGetCurrentSize, hcur]
  rcases hset : g.backend.setMigSize
      (if g.cfg.maxSize ≤ env.estimateFn ni fitting then g.cfg.maxSize
       else env.estimateFn ni fitting) with e | u
  · have heval : scaleUp env =
        ⟨.failure ("failed to set MIG size: " ++ e),
         [(g.cfg.name, env.estimateFn ni fitting)],
         [(g.cfg.name,
           if g.cfg.maxSize ≤ env.estimateFn ni fitting then g.cfg.maxSize
           else env.estimateFn ni fitting)]⟩ := by
      simp [scaleUp, hne, hbest, hfit, hni, hcur2, gceSetSize, hset]
    refine ⟨by rw [heval], by rw [heval], fun hok => ?_⟩
    exact absurd hok (by simp)
  · have heval : scaleUp env =
        ⟨.success,
         [(g.cfg.name, env.estimateFn ni fitting)],
         [(g.cfg.name,
           if g.cfg.maxSize ≤ env.estimateFn ni fitting then g.cfg.maxSize
           else env.estimateFn ni fitting)]⟩ := by
      simp [scaleUp, hne, hbest, hfit, hni, hcur2, gceSetSize, hset]
    exact ⟨by rw [heval], by rw [heval], fun _ => by rw [heval]⟩

/-- C2 witness, the spec's concrete scenario: currentSize 1, maxSize 3,
estimate 5 — the engine passes 5 to `SetSize` and the backend is set to 3,
successfully. -/
theorem scaleUp_resize_target_capped_witness :
    (scaleUp envC2).engineSetCalls = [("mig-a", 5)] ∧
    (scaleUp envC2).migSetCalls = [("mig-a", 3)] ∧
    (scaleUp envC2).result = .success := by
  have h := scaleUp_resize_target_capped envC2 gGood [0] 0 1 (by decide) rfl rfl rfl
  refine ⟨h.1, ?_, h.2.2 rfl⟩
  rw [h.2.1]
  decide
